import Mathlib

/-!
Shallow embedding of the oracle-table-migration engine
(`oracle_table_migration/migration/migrator.py`,
`oracle_table_migration/db/schema_validator.py`,
`oracle_table_migration/db/oracle_handler.py`,
`oracle_table_migration/main.py`).

Database query results, statement outcomes and driver primitives are
modelled as an explicit environment; every mutating call the code makes
is recorded in an operation trace.
-/

namespace OTM

/-- Python runtime values as they flow through `convert_value`:
`None`, `str`, `int`, `bool`, and any other object (opaque tag). -/
inductive PyValue where
  | none
  | str (s : String)
  | int (n : Int)
  | bool (b : Bool)
  | obj (tag : Nat)
  deriving DecidableEq, Repr

/-- Python `isinstance(value, str)`. -/
def PyValue.isStr : PyValue → Bool
  | .str _ => true
  | _ => false

/-- Python `str(value)` for the embedded value universe. -/
def pyStr : PyValue → String
  | .none => "None"
  | .str s => s
  | .int n => toString n
  | .bool b => if b then "True" else "False"
  | .obj tag => "object-" ++ toString tag

/-- Embedding of `TableMigrator.convert_value` (migrator.py lines 63-80):
`None` passes through; a non-`str` value bound for a `VARCHAR2` column is
stringified; everything else passes through unchanged. -/
def convert_value (value : PyValue) (target_type : String) : PyValue :=
  if value = .none then .none
  else if target_type = "VARCHAR2" ∧ value.isStr = false then .str (pyStr value)
  else value

/-- One row of `user_tab_columns` as the dict built by
`SchemaValidator.get_table_schema` (schema_validator.py lines 42-51). -/
structure ColumnDef where
  name : String
  data_type : String
  data_length : Option Int
  data_precision : Option Int
  data_scale : Option Int
  nullable : String
  deriving DecidableEq, Repr

/-- Embedding of `TableMigrator.convert_row_values` (migrator.py lines 82-96):
`zip` the row with the column list and convert positionally. -/
def convert_row_values (row : List PyValue) (column_types : List ColumnDef) : List PyValue :=
  (row.zip column_types).map fun vc => convert_value vc.1 vc.2.data_type

/-- Per-column comparison performed inside `SchemaValidator.schemas_match`
(schema_validator.py lines 98-104): name, data_type, data_length,
data_precision and data_scale; nullability is not compared. -/
def colsEqual (s t : ColumnDef) : Bool :=
  s.name == t.name && s.data_type == t.data_type && s.data_length == t.data_length &&
  s.data_precision == t.data_precision && s.data_scale == t.data_scale

/-- Column-list comparison of `SchemaValidator.schemas_match`
(schema_validator.py lines 95-106): equal length, then pointwise `colsEqual`
over the zipped lists. -/
def colsCompare (src tgt : List ColumnDef) : Bool :=
  if src.length ≠ tgt.length then false
  else (src.zip tgt).all fun p => colsEqual p.1 p.2

/-- Embedding of `TableMigrator.prepare_insert_statement`
(migrator.py lines 187-201). -/
def prepare_insert_statement (table_name : String) (column_names : List String) : String :=
  let placeholders := String.intercalate ", "
    ((List.range column_names.length).map fun i => ":" ++ toString (i + 1))
  let columns := String.intercalate ", " column_names
  "INSERT INTO " ++ table_name ++ " (" ++ columns ++ ") VALUES (" ++ placeholders ++ ")"

/-- Replacement of every non-overlapping occurrence of `ho :: to` in the
input, scanning left to right (the non-empty-pattern case of Python
`str.replace`). -/
def replaceChars (ho : Char) (tl new : List Char) : List Char → List Char
  | [] => []
  | c :: rest =>
    if (ho :: tl).isPrefixOf (c :: rest) then
      new ++ replaceChars ho tl new (rest.drop tl.length)
    else c :: replaceChars ho tl new rest
termination_by l => l.length
decreasing_by
  · simp only [List.length_drop, List.length_cons]
    omega
  · simp only [List.length_cons]
    omega

/-- Python `s.replace(old, new)`: every non-overlapping occurrence is
replaced left to right; with an empty pattern, `new` is inserted at every
character boundary including both ends. -/
def pyReplace (s old new : String) : String :=
  match old.toList with
  | [] => new ++ String.join (s.toList.map fun c => String.singleton c ++ new)
  | ho :: tl => String.mk (replaceChars ho tl new.toList s.toList)

/-- Dataclass `IndexDefinition` (oracle_handler.py lines 11-18). -/
structure IndexDefinition where
  name : String
  table_name : String
  columns : List String
  is_unique : Bool
  tablespace_name : Option String
  deriving DecidableEq, Repr

/-- Index-name computation inside `OracleHandler.generate_index_ddl`
(oracle_handler.py lines 83-90): keep the name when the target table name
has the same length as the owning table name, otherwise replace the owning
table name inside the index name and truncate to 30 characters. -/
def new_index_name (index : IndexDefinition) (target_table : String) : String :=
  if target_table.length = index.table_name.length then index.name
  else (pyReplace index.name index.table_name target_table).take 30

/-- Embedding of `OracleHandler.generate_index_ddl`
(oracle_handler.py lines 68-100). -/
def generate_index_ddl (index : IndexDefinition) (target_table : String) : String :=
  let columns := String.intercalate ", " index.columns
  "CREATE " ++ (if index.is_unique then "UNIQUE " else "") ++ "INDEX "
    ++ new_index_name index target_table ++ " ON " ++ target_table ++ " (" ++ columns ++ ")"

/-- Embedding of the generator `TableMigrator._get_data_in_chunks`
(migrator.py lines 151-172) as the list of yielded batches:
`cursor.fetchmany(k)` on a result set returns its next `k` rows (fewer at
the end, none when exhausted or when `k = 0`), and the loop stops at the
first empty fetch. -/
def chunksOf (k : Nat) (rows : List (List PyValue)) : List (List (List PyValue)) :=
  if h : rows.take k = [] then [] else rows.take k :: chunksOf k (rows.drop k)
termination_by rows.length
decreasing_by
  have hk : k ≠ 0 := by rintro rfl; simp at h
  have hr : rows ≠ [] := by rintro rfl; simp at h
  have hl := List.length_pos.mpr hr
  simp only [List.length_drop]
  omega

/-- Mutating calls and cursor primitives issued during one table migration,
each DDL/DML op tagged with the outcome its statement had. -/
inductive Op where
  | dropTable (ok : Bool) (table : String)
  | createTable (ok : Bool) (table : String) (schema : List ColumnDef)
  | fetch (n : Nat)
  | insertBatch (ok : Bool) (stmt : String) (rows : List (List PyValue))
  | commit
  | rollback
  | closeCursor
  | createIndex (ok : Bool) (ddl : String)
  deriving DecidableEq, Repr

/-- Table DDL against the target (DROP TABLE / CREATE TABLE). -/
def Op.isTableDDL : Op → Bool
  | .dropTable _ _ => true
  | .createTable _ _ _ => true
  | _ => false

/-- Data-copy operations (cursor primitives and per-batch DML). -/
def Op.isCopyOp : Op → Bool
  | .fetch _ => true
  | .insertBatch _ _ _ => true
  | .commit => true
  | .rollback => true
  | .closeCursor => true
  | _ => false

/-- Results the two database connections return to one `migrate_table`
call: introspection answers, statement outcomes, and the source result
set.  A field stands for the value the corresponding query or statement
yields in the run being modelled. -/
structure Env where
  source_exists : Bool
  target_exists : Bool
  source_schema : List ColumnDef
  target_schema : List ColumnDef
  drop_ok : Bool
  create_ok : Bool
  row_count : Option Int
  source_rows : List (List PyValue)
  insert_ok : Nat → Bool
  migrate_indexes_globally : Bool
  indexes : List IndexDefinition
  gen_ddl : IndexDefinition → String
  index_exec_ok : String → Bool

/-- Embedding of `SchemaValidator.schemas_match` (schema_validator.py
lines 73-106): source must exist, target must exist, then the column
lists are compared with `colsCompare`. -/
def schemas_match (env : Env) : Bool :=
  if env.source_exists = false then false
  else if env.target_exists = false then false
  else colsCompare env.source_schema env.target_schema

/-- Embedding of `SchemaValidator.drop_table` (schema_validator.py lines
153-164): one DROP TABLE statement, returning the statement outcome. -/
def drop_table (env : Env) (t : String) : Bool × List Op :=
  (env.drop_ok, [.dropTable env.drop_ok t])

/-- Embedding of `SchemaValidator.create_table` (schema_validator.py lines
166-180): the CREATE TABLE DDL is generated from the source schema
(`generate_create_table_sql`, lines 108-151); an empty source schema makes
the generated DDL empty and `create_table` fail without executing
anything. -/
def create_table (env : Env) (t : String) : Bool × List Op :=
  if env.source_schema = [] then (false, [])
  else (env.create_ok, [.createTable env.create_ok t env.source_schema])

/-- Reconciliation phase of `TableMigrator.migrate_table` (migrator.py
lines 220-244): the decision on existence/behavior/schema match, then the
create when the table does not (or no longer does) exist.  Returns whether
the copy phase is reached, plus the issued operations. -/
def reconcile (env : Env) (t : String) (behavior : String) : Bool × List Op :=
  let sm := if env.target_exists then schemas_match env else false
  if env.target_exists then
    if behavior = "drop_and_recreate" then
      let d := drop_table env t
      if d.1 = false then (false, d.2)
      else
        let c := create_table env t
        (c.1, d.2 ++ c.2)
    else if behavior = "append_if_compatible" then
      if sm = false then (false, [])
      else (true, [])
    else (false, [])
  else create_table env t

/-- Copy loop of `TableMigrator.migrate_table` (migrator.py lines 272-293)
driving the chunk generator: each demanded batch is one fetch, then the
rows are converted against the source column list and inserted with
`executemany`; a failed batch rolls back and stops; exhaustion makes the
generator fetch an empty batch and close its cursor. -/
def copyLoop (stmt : String) (cols : List ColumnDef) (ins_ok : Nat → Bool) :
    List (List (List PyValue)) → Nat → Bool × List Op × Nat
  | [], _i => (true, [.fetch 0, .closeCursor], 0)
  | chunk :: rest, i =>
    let converted := chunk.map fun r => convert_row_values r cols
    if ins_ok i then
      let next := copyLoop stmt cols ins_ok rest (i + 1)
      (next.1, .fetch chunk.length :: .insertBatch true stmt converted :: .commit :: next.2.1,
        chunk.length + next.2.2)
    else
      (false, [.fetch chunk.length, .insertBatch false stmt converted, .rollback], 0)

/-- Embedding of `OracleHandler.create_index` (oracle_handler.py lines
102-122): empty DDL fails outright, otherwise the statement outcome is
returned. -/
def create_index (exec_ok : String → Bool) (index_ddl : String) : Bool :=
  if index_ddl = "" then false else exec_ok index_ddl

/-- Loop body of `TableMigrator._migrate_indexes_for_table` (migrator.py
lines 323-346): per index, generate DDL (empty string models a generation
failure), on failure record and continue; otherwise create the index and
record its outcome; always continue.  Returns the final success flag, the
names attempted in order, and the issued operations. -/
def indexLoop (gen : IndexDefinition → String) (exec_ok : String → Bool) :
    List IndexDefinition → Bool → Bool × List String × List Op
  | [], success => (success, [], [])
  | idx :: rest, success =>
    let ddl := gen idx
    if ddl = "" then
      let next := indexLoop gen exec_ok rest false
      (next.1, idx.name :: next.2.1, next.2.2)
    else
      let ok := create_index exec_ok ddl
      let next := indexLoop gen exec_ok rest (success && ok)
      (next.1, idx.name :: next.2.1, .createIndex ok ddl :: next.2.2)

/-- Embedding of `TableMigrator._migrate_indexes_for_table` (migrator.py
lines 305-350): no indexes is a trivial success, otherwise the loop runs
over every discovered index.  `env.gen_ddl` is the connection handle's
`generate_index_ddl` capability (in the unmocked program it is
`generate_index_ddl · target_table`). -/
def migrate_indexes_for_table (env : Env) : Bool × List String × List Op :=
  if env.indexes = [] then (true, [], [])
  else indexLoop env.gen_ddl env.index_exec_ok env.indexes true

/-- Outcome of one `migrate_table` call: the returned boolean, the trace of
issued operations, and `rows_processed`. -/
structure MigrationResult where
  success : Bool
  ops : List Op
  rows_copied : Nat
  deriving DecidableEq, Repr

/-- Embedding of `TableMigrator.migrate_table` (migrator.py lines 203-303):
reconcile the target table, get the row count (`none` models the count
query raising), return success immediately on zero rows, otherwise build
the INSERT from the source schema, stream chunks, and finally run the
best-effort index migration when globally enabled. -/
def migrate_table (env : Env) (t : String) (behavior : String) (chunk_size : Nat) :
    MigrationResult :=
  let r := reconcile env t behavior
  if r.1 = false then ⟨false, r.2, 0⟩
  else
    match env.row_count with
    | Option.none => ⟨false, r.2, 0⟩
    | Option.some rc =>
      if rc = 0 then ⟨true, r.2, 0⟩
      else
        let column_types := env.source_schema
        let stmt := prepare_insert_statement t (column_types.map (·.name))
        let c := copyLoop stmt column_types env.insert_ok (chunksOf chunk_size env.source_rows) 0
        if c.1 = false then ⟨false, r.2 ++ c.2.1, c.2.2⟩
        else if env.migrate_indexes_globally then
          ⟨true, r.2 ++ c.2.1 ++ (migrate_indexes_for_table env).2.2, c.2.2⟩
        else ⟨true, r.2 ++ c.2.1, c.2.2⟩

/-- State of the target table: whether it exists, its columns, and its
committed and in-flight (uncommitted) rows. -/
structure TargetState where
  present : Bool
  schema : List ColumnDef
  committed : List (List PyValue)
  pending : List (List PyValue)
  deriving DecidableEq, Repr

/-- Effect of one operation on the target table: successful DROP removes
it, successful CREATE installs the new columns, successful batch inserts
are pending until COMMIT, ROLLBACK discards pending rows; reads, cursor
primitives and index DDL leave the table alone. -/
def applyOp (st : TargetState) : Op → TargetState
  | .dropTable ok _ => if ok then ⟨false, [], [], []⟩ else st
  | .createTable ok _ sch => if ok then ⟨true, sch, [], []⟩ else st
  | .insertBatch ok _ rows => if ok then { st with pending := st.pending ++ rows } else st
  | .commit => { st with committed := st.committed ++ st.pending, pending := [] }
  | .rollback => { st with pending := [] }
  | .fetch _ => st
  | .closeCursor => st
  | .createIndex _ _ => st

/-- Replay of an operation trace against a target-table state. -/
def applyOps (st : TargetState) (ops : List Op) : TargetState :=
  ops.foldl applyOp st

/-- Parameters of `TableMigrator.__init__` besides `self` (migrator.py
lines 14-15): `source_conn`, `target_conn`, `migration_settings`; `true`
would mark a parameter carrying a default value — none does. -/
def tableMigratorInitParams : List Bool := [false, false, false]

/-- Number of positional arguments `main` passes when constructing the
migrator (`TableMigrator(source_db, target_db)`, main.py line 59). -/
def mainMigratorArgCount : Nat := 2

/-- Python positional-call binding for a plain signature: every parameter
without a default must receive an argument and no argument may be left
over, else the call raises `TypeError`. -/
def pyCallBindOk (params : List Bool) (nargs : Nat) : Bool :=
  decide ((params.filter fun hasDefault => !hasDefault).length ≤ nargs) &&
    decide (nargs ≤ params.length)

/-- Inputs of one `main` run: the two connect outcomes and the
`migrate_table` outcome of each configured table, in configured order. -/
structure RunEnv where
  source_connect_ok : Bool
  target_connect_ok : Bool
  table_results : List Bool
  deriving DecidableEq, Repr

/-- Embedding of `main` (main.py lines 24-101): failed connects return 1;
the `TableMigrator(source_db, target_db)` construction at line 59 runs
before the table loop, and a `TypeError` from its argument binding is
caught by the surrounding `except` and turned into exit code 1; with the
construction bound, no configured tables returns 0, and otherwise the loop
counts per-table failures and the exit code is 0 iff none failed. -/
def mainExitCode (env : RunEnv) : Nat :=
  if env.source_connect_ok = false then 1
  else if env.target_connect_ok = false then 1
  else if pyCallBindOk tableMigratorInitParams mainMigratorArgCount = false then 1
  else if env.table_results = [] then 0
  else if (env.table_results.filter fun b => !b).length = 0 then 0
  else 1

def colA : ColumnDef := ⟨"A", "NUMBER", Option.none, Option.some 10, Option.some 0, "Y"⟩

def colB : ColumnDef := ⟨"B", "VARCHAR2", Option.some 20, Option.none, Option.none, "Y"⟩

def sampleEnv : Env :=
  { source_exists := true
    target_exists := false
    source_schema := [colA, colB]
    target_schema := []
    drop_ok := true
    create_ok := true
    row_count := Option.some 3
    source_rows := [[.int 1, .str "x"], [.int 2, .int 5], [.int 3, .none]]
    insert_ok := fun _ => true
    migrate_indexes_globally := false
    indexes := []
    gen_ddl := fun _ => ""
    index_exec_ok := fun _ => true }

/-- Variant of `sampleEnv` with an existing target table whose column list
differs from the source (one column instead of two). -/
def mismatchEnv : Env := { sampleEnv with target_exists := true, target_schema := [colA] }

/-- Variant of `sampleEnv` with an existing target table whose column list
equals the source's, so the schemas match. -/
def matchEnv : Env := { sampleEnv with target_exists := true, target_schema := [colA, colB] }

/-- Variant of `sampleEnv` whose batch inserts all fail. -/
def failEnv : Env := { sampleEnv with insert_ok := fun _ => false }

/-- Target-table state matching `sampleEnv`: table absent. -/
def sampleSt : TargetState := ⟨false, [], [], []⟩

def idx1 : IndexDefinition :=
  ⟨"IDX_TEST_1", "TEST_TABLE", ["COL1", "COL2"], true, Option.some "TEST_TS"⟩

def idx2 : IndexDefinition := ⟨"IDX_TEST_2", "TEST_TABLE", ["COL3"], false, Option.none⟩

/-- Variant of `sampleEnv` with two discovered indexes where the second
CREATE INDEX statement fails. -/
def idxEnv : Env :=
  { sampleEnv with
    indexes := [idx1, idx2]
    gen_ddl := fun i => "CREATE INDEX " ++ i.name
    index_exec_ok := fun s2 => s2 == "CREATE INDEX IDX_TEST_1"
    migrate_indexes_globally := true }

/-! Theorems. -/

/-- Matching column lists have identical name sequences: `colsCompare`
checks equal length and pointwise equal names (among other fields). -/
theorem colsCompare_map_name (src tgt : List ColumnDef) (h : colsCompare src tgt = true) :
    src.map (·.name) = tgt.map (·.name) := by
  induction src generalizing tgt with
  | nil =>
    unfold colsCompare at h
    split at h
    · exact absurd h (by simp)
    · next hlen =>
      have : tgt = [] := by
        cases tgt with
        | nil => rfl
        | cons a l => simp at hlen
      simp [this]
  | cons s srest ih =>
    cases tgt with
    | nil =>
      unfold colsCompare at h
      split at h
      · exact absurd h (by simp)
      · next hlen => simp at hlen
    | cons tt trest =>
      unfold colsCompare at h
      split at h
      · exact absurd h (by simp)
      · next hlen =>
        simp only [List.zip_cons_cons, List.all_cons, Bool.and_eq_true] at h
        obtain ⟨h1, h2⟩ := h
        have hname : s.name = tt.name := by
          simp only [colsEqual, Bool.and_eq_true, beq_iff_eq] at h1
          exact h1.1.1.1.1
        have hrest : colsCompare srest trest = true := by
          unfold colsCompare
          split
          · next hl => simp at hlen; omega
          · exact h2
        simp [hname, ih trest hrest]

/-- C7: for chunk size `k > 0` over a source of `n` rows, the chunk
generator yields `ceil(n/k)` batches, every batch before the last has
exactly `k` rows, every yielded batch (in particular the last) is
non-empty, and the batch sizes sum to `n`. -/
theorem claim_C7_chunked_batches (k : Nat) (rows : List (List PyValue)) (hk : 0 < k) :
    (chunksOf k rows).length = (rows.length + k - 1) / k ∧
    (∀ c ∈ (chunksOf k rows).dropLast, c.length = k) ∧
    (∀ c ∈ chunksOf k rows, c ≠ []) ∧
    ((chunksOf k rows).map List.length).sum = rows.length := by
  induction rows using chunksOf.induct k with
  | case1 x h =>
    have hx : x = [] := by
      rcases List.take_eq_nil_iff.mp h with h0 | h0
      · omega
      · exact h0
    subst hx
    rw [chunksOf]
    simp [Nat.div_eq_of_lt (show k - 1 < k by omega)]
  | case2 x h ih =>
    rw [chunksOf, dif_neg h]
    obtain ⟨ih1, ih2, ih3, ih4⟩ := ih
    have hxne : x ≠ [] := by rintro rfl; simp at h
    have hxlen : 0 < x.length := List.length_pos.mpr hxne
    constructor
    · simp only [List.length_cons, ih1, List.length_drop]
      rcases Nat.lt_or_ge x.length k with hlt | hge
      · have h1 : x.length - k = 0 := by omega
        rw [h1]
        have h2 : (x.length + k - 1) / k = 1 :=
          Nat.div_eq_of_lt_le (by omega) (by omega)
        simp [h2, Nat.div_eq_of_lt (show k - 1 < k by omega)]
      · have h2 : x.length - k + k - 1 = x.length - 1 := by omega
        rw [h2]
        have h3 : x.length + k - 1 = (x.length - 1) + 1 * k := by omega
        rw [h3, Nat.add_mul_div_right _ _ hk]
    refine ⟨?_, ?_, ?_⟩
    · intro c hc
      by_cases hnil : chunksOf k (x.drop k) = []
      · rw [hnil] at hc
        simp at hc
      · rw [List.dropLast_cons_of_ne_nil hnil] at hc
        rcases List.mem_cons.mp hc with rfl | hc2
        · have hdne : x.drop k ≠ [] := by
            intro hd
            rw [hd, chunksOf] at hnil
            simp at hnil
          have hlen : k ≤ x.length := by
            by_contra hcon
            push_neg at hcon
            exact hdne (List.drop_eq_nil_of_le (by omega))
          simp [List.length_take, Nat.min_eq_left hlen]
        · exact ih2 c hc2
    · intro c hc
      rcases List.mem_cons.mp hc with rfl | hc2
      · exact h
      · exact ih3 c hc2
    · simp only [List.map_cons, List.sum_cons, ih4, List.length_take, List.length_drop]
      omega

/-- Witness for C7 at `k = 2` over three rows. -/
theorem claim_C7_chunked_batches_witness :
    0 < 2 ∧
    ((chunksOf 2 [[PyValue.int 1], [PyValue.int 2], [PyValue.int 3]]).length = (3 + 2 - 1) / 2 ∧
      (∀ c ∈ (chunksOf 2 [[PyValue.int 1], [PyValue.int 2], [PyValue.int 3]]).dropLast,
        c.length = 2) ∧
      (∀ c ∈ chunksOf 2 [[PyValue.int 1], [PyValue.int 2], [PyValue.int 3]], c ≠ []) ∧
      ((chunksOf 2 [[PyValue.int 1], [PyValue.int 2], [PyValue.int 3]]).map List.length).sum
        = 3) :=
  ⟨by decide, claim_C7_chunked_batches 2 [[PyValue.int 1], [PyValue.int 2], [PyValue.int 3]]
    (by decide)⟩

/-- C9: `generate_index_ddl` keeps the index name unchanged when the
target table name has the same character length as the owning table name,
and otherwise substitutes the owning-table substring inside the index name
with the target table name (Python `str.replace`) and truncates to 30
characters. -/
theorem claim_C9_index_name_rule (index : IndexDefinition) (target_table : String) :
    (target_table.length = index.table_name.length →
      new_index_name index target_table = index.name) ∧
    (target_table.length ≠ index.table_name.length →
      new_index_name index target_table =
        (pyReplace index.name index.table_name target_table).take 30) := by
  constructor
  · intro hlen
    simp [new_index_name, hlen]
  · intro hlen
    simp [new_index_name, hlen]

/-- Witness for C9 on the spec's example `IDX_TBL_TEST` / `TBL` → `TBL2`
(different lengths, name rewritten) and `TBL` → `TB2` (same length, name
kept). -/
theorem claim_C9_index_name_rule_witness :
    ("TBL2".length ≠ "TBL".length ∧
      new_index_name ⟨"IDX_TBL_TEST", "TBL", ["COL1"], false, Option.none⟩ "TBL2" =
        (pyReplace "IDX_TBL_TEST" "TBL" "TBL2").take 30) ∧
    ("TB2".length = "TBL".length ∧
      new_index_name ⟨"IDX_TBL_TEST", "TBL", ["COL1"], false, Option.none⟩ "TB2" =
        "IDX_TBL_TEST") ∧
    pyReplace "IDX_TBL_TEST" "TBL" "TBL2" = "IDX_TBL2_TEST" :=
  ⟨⟨by decide,
      (claim_C9_index_name_rule ⟨"IDX_TBL_TEST", "TBL", ["COL1"], false, Option.none⟩
        "TBL2").2 (by decide)⟩,
    ⟨by decide,
      (claim_C9_index_name_rule ⟨"IDX_TBL_TEST", "TBL", ["COL1"], false, Option.none⟩
        "TB2").1 (by decide)⟩,
    by simp [pyReplace, replaceChars]⟩

/-- Counterexample to C5: the code stringifies only for `VARCHAR2`;
an integer bound for a fixed-width `CHAR` column passes through unchanged
instead of being stringified. -/
theorem claim_C5_char_counterexample :
    convert_value (.int 123) "CHAR" = .int 123 ∧
      PyValue.int 123 ≠ PyValue.str (pyStr (.int 123)) := by decide

/-- C5 (amended): `convert_value` returns `None` for `None`, stringifies a
non-textual value only when the column type is `VARCHAR2` (VarChar), and
passes every other value through unchanged — including non-textual values
bound for `CHAR` (FixedChar) columns. -/
theorem claim_C5_convert_value (v : PyValue) (t : String) :
    (v = .none → convert_value v t = .none) ∧
    (v ≠ .none → t = "VARCHAR2" → v.isStr = false → convert_value v t = .str (pyStr v)) ∧
    (v ≠ .none → t ≠ "VARCHAR2" → convert_value v t = v) ∧
    (v.isStr = true → convert_value v t = v) := by
  refine ⟨?_, ?_, ?_, ?_⟩
  · intro hv
    simp [convert_value, hv]
  · intro hv ht hs
    simp [convert_value, hv, ht, hs]
  · intro hv ht
    simp [convert_value, hv, ht]
  · intro hs
    have hv : v ≠ .none := by cases v <;> simp_all [PyValue.isStr]
    simp [convert_value, hv, hs]

/-- Witness for C5 (amended): `123` against `VARCHAR2` becomes `"123"`,
`123` against `NUMBER` stays `123`, `None` stays `None`. -/
theorem claim_C5_convert_value_witness :
    (PyValue.int 123 ≠ PyValue.none ∧
      convert_value (.int 123) "VARCHAR2" = .str (pyStr (.int 123))) ∧
    (PyValue.int 123 ≠ PyValue.none ∧ "NUMBER" ≠ "VARCHAR2" ∧
      convert_value (.int 123) "NUMBER" = .int 123) ∧
    convert_value .none "DATE" = .none :=
  ⟨⟨by decide, (claim_C5_convert_value (.int 123) "VARCHAR2").2.1 (by decide) rfl (by decide)⟩,
    ⟨by decide, by decide,
      (claim_C5_convert_value (.int 123) "NUMBER").2.2.1 (by decide) (by decide)⟩,
    (claim_C5_convert_value .none "DATE").1 rfl⟩

/-- C1 (code bug): with both connections succeeding and zero configured
tables — a run with failure count zero — `main` still exits 1, because
`TableMigrator(source_db, target_db)` at main.py line 59 binds two
positional arguments against the three required parameters of
`TableMigrator.__init__` (migrator.py line 14), so the construction raises
`TypeError` before the table loop and the surrounding handler returns 1. -/
theorem claim_C1_zero_tables_exit_one :
    mainExitCode ⟨true, true, []⟩ = 1 ∧
      pyCallBindOk tableMigratorInitParams mainMigratorArgCount = false := by decide


theorem isTableDDL_not_copy (op : Op) (h : op.isTableDDL = true) : op.isCopyOp = false := by
  cases op <;> simp_all [Op.isTableDDL, Op.isCopyOp]

theorem reconcile_ops_ddl (env : Env) (t b : String) :
    ∀ op ∈ (reconcile env t b).2, op.isTableDDL = true := by
  intro op hop
  unfold reconcile drop_table create_table at hop
  by_cases hte : env.target_exists = true
  · simp only [hte, if_true] at hop
    by_cases hb1 : b = "drop_and_recreate"
    · simp only [hb1, if_true, if_pos] at hop
      by_cases hd : env.drop_ok = true
      · simp only [hd, Bool.true_eq_false, if_false, if_neg] at hop
        by_cases hs : env.source_schema = []
        · simp [hs] at hop
          simp [hop, Op.isTableDDL]
        · simp [hs] at hop
          rcases hop with rfl | rfl <;> simp [Op.isTableDDL]
      · simp only [Bool.not_eq_true] at hd
        simp [hd] at hop
        simp [hop, Op.isTableDDL]
    · simp only [hb1, if_false, if_neg] at hop
      by_cases hb2 : b = "append_if_compatible"
      · simp [hb2] at hop
        split at hop <;> simp at hop
      · simp [hb2] at hop
  · simp only [Bool.not_eq_true] at hte
    simp only [hte, Bool.false_eq_true, if_false] at hop
    by_cases hs : env.source_schema = []
    · simp [hs] at hop
    · simp [hs] at hop
      simp [hop, Op.isTableDDL]


theorem copyLoop_ops_shape (stmt : String) (cols : List ColumnDef) (ins_ok : Nat → Bool) :
    ∀ chunks i, ∀ op ∈ (copyLoop stmt cols ins_ok chunks i).2.1, op.isCopyOp = true := by
  intro chunks
  induction chunks with
  | nil =>
    intro i op hop
    simp only [copyLoop, List.mem_cons, List.not_mem_nil, or_false] at hop
    rcases hop with rfl | rfl <;> rfl
  | cons chunk rest ih =>
    intro i op hop
    simp only [copyLoop] at hop
    by_cases hins : ins_ok i
    · simp only [hins, if_true, if_pos, List.mem_cons] at hop
      rcases hop with rfl | rfl | rfl | h4
      · rfl
      · rfl
      · rfl
      · exact ih (i + 1) op h4
    · simp only [hins, Bool.false_eq_true, if_false, if_neg, List.mem_cons,
        List.not_mem_nil, or_false] at hop
      rcases hop with rfl | rfl | rfl <;> rfl

theorem copyLoop_insert_mem (stmt : String) (cols : List ColumnDef) (ins_ok : Nat → Bool) :
    ∀ chunks i ok s rs, Op.insertBatch ok s rs ∈ (copyLoop stmt cols ins_ok chunks i).2.1 →
      s = stmt ∧ rs ∈ chunks.map fun ch => ch.map fun r => convert_row_values r cols := by
  intro chunks
  induction chunks with
  | nil =>
    intro i ok s rs hop
    simp only [copyLoop, List.mem_cons, List.not_mem_nil, or_false] at hop
    rcases hop with h | h <;> simp at h
  | cons chunk rest ih =>
    intro i ok s rs hop
    simp only [copyLoop] at hop
    by_cases hins : ins_ok i
    · simp only [hins, if_true, if_pos, List.mem_cons] at hop
      rcases hop with h | h | h | h4
      · simp at h
      · obtain ⟨-, rfl, rfl⟩ := Op.insertBatch.inj h.symm
        exact ⟨rfl, by simp⟩
      · simp at h
      · obtain ⟨h1, h2⟩ := ih (i + 1) ok s rs h4
        exact ⟨h1, by simp only [List.map_cons, List.mem_cons]; right; exact h2⟩
    · simp only [hins, Bool.false_eq_true, if_false, if_neg, List.mem_cons,
        List.not_mem_nil, or_false] at hop
      rcases hop with h | h | h
      · simp at h
      · obtain ⟨-, rfl, rfl⟩ := Op.insertBatch.inj h.symm
        exact ⟨rfl, by simp⟩
      · simp at h

theorem copyLoop_close_fetch (stmt : String) (cols : List ColumnDef) (ins_ok : Nat → Bool) :
    ∀ chunks i, Op.closeCursor ∈ (copyLoop stmt cols ins_ok chunks i).2.1 →
      Op.fetch 0 ∈ (copyLoop stmt cols ins_ok chunks i).2.1 := by
  intro chunks
  induction chunks with
  | nil =>
    intro i _h
    simp [copyLoop]
  | cons chunk rest ih =>
    intro i hop
    simp only [copyLoop] at hop ⊢
    by_cases hins : ins_ok i
    · simp only [hins, if_true, if_pos, List.mem_cons] at hop ⊢
      rcases hop with h | h | h | h4
      · simp at h
      · simp at h
      · simp at h
      · right; right; right; exact ih (i + 1) h4
    · simp only [hins, Bool.false_eq_true, if_false, if_neg, List.mem_cons,
        List.not_mem_nil, or_false] at hop
      rcases hop with h | h | h <;> simp at h

theorem copyLoop_fail_no_close (stmt : String) (cols : List ColumnDef) (ins_ok : Nat → Bool) :
    ∀ chunks i, (copyLoop stmt cols ins_ok chunks i).1 = false →
      Op.closeCursor ∉ (copyLoop stmt cols ins_ok chunks i).2.1 := by
  intro chunks
  induction chunks with
  | nil =>
    intro i hfail
    simp [copyLoop] at hfail
  | cons chunk rest ih =>
    intro i hfail hop
    simp only [copyLoop] at hfail hop
    by_cases hins : ins_ok i
    · simp only [hins, if_true, if_pos] at hfail hop
      simp only [List.mem_cons] at hop
      rcases hop with h | h | h | h4
      · simp at h
      · simp at h
      · simp at h
      · exact ih (i + 1) hfail h4
    · simp only [hins, Bool.false_eq_true, if_false, if_neg, List.mem_cons,
        List.not_mem_nil, or_false] at hop
      rcases hop with h | h | h <;> simp at h


theorem indexLoop_attempts (gen : IndexDefinition → String) (exec_ok : String → Bool)
    (l : List IndexDefinition) : ∀ s, (indexLoop gen exec_ok l s).2.1 = l.map (·.name) := by
  induction l with
  | nil => intro s; simp [indexLoop]
  | cons idx rest ih =>
    intro s
    by_cases hd : gen idx = "" <;> simp [indexLoop, hd, ih]

theorem indexLoop_success (gen : IndexDefinition → String) (exec_ok : String → Bool)
    (l : List IndexDefinition) :
    ∀ s, (indexLoop gen exec_ok l s).1 =
      (s && l.all fun idx => !(gen idx == "") && exec_ok (gen idx)) := by
  induction l with
  | nil => intro s; simp [indexLoop]
  | cons idx rest ih =>
    intro s
    by_cases hd : gen idx = ""
    · simp [indexLoop, hd, ih]
    · have hbeq : (gen idx == "") = false := beq_eq_false_iff_ne.mpr hd
      simp only [indexLoop, hd, if_neg, ih, create_index, List.all_cons]
      simp [hbeq, hd, Bool.and_assoc]

theorem indexLoop_ops_createIndex (gen : IndexDefinition → String) (exec_ok : String → Bool)
    (l : List IndexDefinition) :
    ∀ s, ∀ op ∈ (indexLoop gen exec_ok l s).2.2, ∃ ok ddl, op = Op.createIndex ok ddl := by
  induction l with
  | nil => intro s op hop; simp [indexLoop] at hop
  | cons idx rest ih =>
    intro s op hop
    by_cases hd : gen idx = ""
    · simp only [indexLoop, hd, if_true] at hop
      exact ih false op hop
    · simp only [indexLoop, hd, if_false, List.mem_cons] at hop
      rcases hop with h | h
      · exact ⟨_, _, h⟩
      · exact ih _ op h

theorem migrate_indexes_attempts (env : Env) :
    (migrate_indexes_for_table env).2.1 = env.indexes.map (·.name) := by
  unfold migrate_indexes_for_table
  by_cases hi : env.indexes = []
  · simp [hi]
  · simp [hi, indexLoop_attempts]

theorem migrate_indexes_ops (env : Env) :
    ∀ op ∈ (migrate_indexes_for_table env).2.2, ∃ ok ddl, op = Op.createIndex ok ddl := by
  unfold migrate_indexes_for_table
  by_cases hi : env.indexes = []
  · simp [hi]
  · simp only [hi, if_neg]
    exact indexLoop_ops_createIndex env.gen_ddl env.index_exec_ok env.indexes true

theorem reconcile_target_absent (env : Env) (t b : String) (h : env.target_exists = false) :
    reconcile env t b = create_table env t := by
  unfold reconcile
  simp [h]

theorem reconcile_append_match (env : Env) (t : String) (h : env.target_exists = true)
    (hs : schemas_match env = true) :
    reconcile env t "append_if_compatible" = (true, []) := by
  unfold reconcile
  simp [h, hs]

theorem reconcile_append_mismatch (env : Env) (t : String) (h : env.target_exists = true)
    (hs : schemas_match env = false) :
    reconcile env t "append_if_compatible" = (false, []) := by
  unfold reconcile
  simp [h, hs]

theorem reconcile_invalid_behavior (env : Env) (t b : String) (h : env.target_exists = true)
    (h1 : b ≠ "drop_and_recreate") (h2 : b ≠ "append_if_compatible") :
    reconcile env t b = (false, []) := by
  unfold reconcile
  simp [h, h1, h2]

theorem reconcile_drop_fail (env : Env) (t : String) (h : env.target_exists = true)
    (hd : env.drop_ok = false) :
    reconcile env t "drop_and_recreate" = (false, [.dropTable false t]) := by
  unfold reconcile drop_table
  simp [h, hd]

theorem reconcile_drop_ok (env : Env) (t : String) (h : env.target_exists = true)
    (hd : env.drop_ok = true) :
    reconcile env t "drop_and_recreate" =
      ((create_table env t).1, .dropTable true t :: (create_table env t).2) := by
  unfold reconcile drop_table
  simp [h, hd]


theorem migrate_table_cases (env : Env) (t b : String) (k : Nat) :
    ((reconcile env t b).1 = false ∧
      migrate_table env t b k = ⟨false, (reconcile env t b).2, 0⟩) ∨
    ((reconcile env t b).1 = true ∧ env.row_count = Option.none ∧
      migrate_table env t b k = ⟨false, (reconcile env t b).2, 0⟩) ∨
    ((reconcile env t b).1 = true ∧ env.row_count = Option.some 0 ∧
      migrate_table env t b k = ⟨true, (reconcile env t b).2, 0⟩) ∨
    (∃ rc, (reconcile env t b).1 = true ∧ env.row_count = Option.some rc ∧ rc ≠ 0 ∧
      (copyLoop (prepare_insert_statement t (env.source_schema.map (·.name)))
        env.source_schema env.insert_ok (chunksOf k env.source_rows) 0).1 = false ∧
      migrate_table env t b k = ⟨false,
        (reconcile env t b).2 ++ (copyLoop (prepare_insert_statement t
          (env.source_schema.map (·.name))) env.source_schema env.insert_ok
          (chunksOf k env.source_rows) 0).2.1,
        (copyLoop (prepare_insert_statement t (env.source_schema.map (·.name)))
          env.source_schema env.insert_ok (chunksOf k env.source_rows) 0).2.2⟩) ∨
    (∃ rc, (reconcile env t b).1 = true ∧ env.row_count = Option.some rc ∧ rc ≠ 0 ∧
      (copyLoop (prepare_insert_statement t (env.source_schema.map (·.name)))
        env.source_schema env.insert_ok (chunksOf k env.source_rows) 0).1 = true ∧
      migrate_table env t b k = ⟨true,
        (reconcile env t b).2 ++ (copyLoop (prepare_insert_statement t
          (env.source_schema.map (·.name))) env.source_schema env.insert_ok
          (chunksOf k env.source_rows) 0).2.1 ++
          (if env.migrate_indexes_globally then (migrate_indexes_for_table env).2.2 else []),
        (copyLoop (prepare_insert_statement t (env.source_schema.map (·.name)))
          env.source_schema env.insert_ok (chunksOf k env.source_rows) 0).2.2⟩) := by
  by_cases hr : (reconcile env t b).1 = false
  · left
    refine ⟨hr, ?_⟩
    unfold migrate_table
    simp [hr]
  · have hr1 : (reconcile env t b).1 = true := by
      cases h : (reconcile env t b).1
      · exact absurd h hr
      · rfl
    right
    cases hrc : env.row_count with
    | none =>
      left
      refine ⟨hr1, rfl, ?_⟩
      unfold migrate_table
      simp [hr1, hrc]
    | some rc =>
      right
      by_cases h0 : rc = 0
      · subst h0
        left
        refine ⟨hr1, rfl, ?_⟩
        unfold migrate_table
        simp [hr1, hrc]
      · right
        by_cases hc : (copyLoop (prepare_insert_statement t (env.source_schema.map (·.name)))
            env.source_schema env.insert_ok (chunksOf k env.source_rows) 0).1 = false
        · left
          refine ⟨rc, hr1, rfl, h0, hc, ?_⟩
          unfold migrate_table
          simp [hr1, hrc, h0, hc]
        · have hc1 : (copyLoop (prepare_insert_statement t (env.source_schema.map (·.name)))
              env.source_schema env.insert_ok (chunksOf k env.source_rows) 0).1 = true := by
            cases h : (copyLoop (prepare_insert_statement t (env.source_schema.map (·.name)))
                env.source_schema env.insert_ok (chunksOf k env.source_rows) 0).1
            · exact absurd h hc
            · rfl
          right
          refine ⟨rc, hr1, rfl, h0, hc1, ?_⟩
          unfold migrate_table
          by_cases hg : env.migrate_indexes_globally = true <;>
            simp [hr1, hrc, h0, hc1, hg]

theorem migrate_table_success_eq (env : Env) (t b : String) (k : Nat) :
    (migrate_table env t b k).success =
      ((reconcile env t b).1 &&
        match env.row_count with
        | Option.none => false
        | Option.some rc =>
          (rc == 0) ||
            (copyLoop (prepare_insert_statement t (env.source_schema.map (·.name)))
              env.source_schema env.insert_ok (chunksOf k env.source_rows) 0).1) := by
  rcases migrate_table_cases env t b k with ⟨h1, he⟩ | ⟨h1, h2, he⟩ | ⟨h1, h2, he⟩ |
    ⟨rc, h1, h2, h3, h4, he⟩ | ⟨rc, h1, h2, h3, h4, he⟩ <;>
    simp [he, h1] <;> simp [h2] <;> simp_all


theorem isCopyOp_not_ddl (op : Op) (h : op.isCopyOp = true) : op.isTableDDL = false := by
  cases op <;> simp_all [Op.isTableDDL, Op.isCopyOp]

theorem migrate_table_rec_false (env : Env) (t b : String) (k : Nat)
    (h : (reconcile env t b).1 = false) :
    migrate_table env t b k = ⟨false, (reconcile env t b).2, 0⟩ := by
  unfold migrate_table
  simp [h]

theorem migrate_table_ops_split (env : Env) (t b : String) (k : Nat) :
    ∃ rest, (migrate_table env t b k).ops = (reconcile env t b).2 ++ rest ∧
      ∀ op ∈ rest, op.isTableDDL = false := by
  rcases migrate_table_cases env t b k with ⟨h1, he⟩ | ⟨h1, h2, he⟩ | ⟨h1, h2, he⟩ |
    ⟨rc, h1, h2, h3, h4, he⟩ | ⟨rc, h1, h2, h3, h4, he⟩
  · exact ⟨[], by simp [he], by simp⟩
  · exact ⟨[], by simp [he], by simp⟩
  · exact ⟨[], by simp [he], by simp⟩
  · refine ⟨(copyLoop (prepare_insert_statement t (env.source_schema.map (·.name)))
      env.source_schema env.insert_ok (chunksOf k env.source_rows) 0).2.1, by simp [he], ?_⟩
    intro op hop
    exact isCopyOp_not_ddl op (copyLoop_ops_shape _ _ _ _ _ op hop)
  · refine ⟨(copyLoop (prepare_insert_statement t (env.source_schema.map (·.name)))
        env.source_schema env.insert_ok (chunksOf k env.source_rows) 0).2.1 ++
        (if env.migrate_indexes_globally then (migrate_indexes_for_table env).2.2 else []),
      by simp [he, List.append_assoc], ?_⟩
    intro op hop
    rcases List.mem_append.mp hop with hcopy | hix
    · exact isCopyOp_not_ddl op (copyLoop_ops_shape _ _ _ _ _ op hcopy)
    · by_cases hg : env.migrate_indexes_globally = true
      · rw [if_pos hg] at hix
        obtain ⟨ok, ddl, rfl⟩ := migrate_indexes_ops env op hix
        rfl
      · rw [if_neg hg] at hix
        simp at hix

theorem reconcile_success_cases (env : Env) (t b : String)
    (h : (reconcile env t b).1 = true) :
    ((reconcile env t b).2 = [.createTable true t env.source_schema] ∧
      env.target_exists = false) ∨
    ((reconcile env t b).2 = [.dropTable true t, .createTable true t env.source_schema]) ∨
    ((reconcile env t b).2 = [] ∧ env.target_exists = true ∧ schemas_match env = true ∧
      b = "append_if_compatible") := by
  by_cases hte : env.target_exists = true
  · by_cases hb1 : b = "drop_and_recreate"
    · subst hb1
      by_cases hd : env.drop_ok = true
      · rw [reconcile_drop_ok env t hte hd] at h ⊢
        unfold create_table at h ⊢
        by_cases hs : env.source_schema = []
        · simp [hs] at h
        · simp only [hs, if_false] at h ⊢
          right
          left
          simp_all
      · have hd0 : env.drop_ok = false := by
          cases hv : env.drop_ok
          · rfl
          · exact absurd hv hd
        rw [reconcile_drop_fail env t hte hd0] at h
        simp at h
    · by_cases hb2 : b = "append_if_compatible"
      · subst hb2
        by_cases hsm : schemas_match env = true
        · rw [reconcile_append_match env t hte hsm]
          right
          right
          exact ⟨rfl, hte, hsm, rfl⟩
        · have hsm0 : schemas_match env = false := by
            cases hv : schemas_match env
            · rfl
            · exact absurd hv hsm
          rw [reconcile_append_mismatch env t hte hsm0] at h
          simp at h
      · rw [reconcile_invalid_behavior env t b hte hb1 hb2] at h
        simp at h
  · have hte0 : env.target_exists = false := by
      cases hv : env.target_exists
      · rfl
      · exact absurd hv hte
    rw [reconcile_target_absent env t b hte0] at h ⊢
    unfold create_table at h ⊢
    by_cases hs : env.source_schema = []
    · simp [hs] at h
    · simp only [hs, if_false] at h ⊢
      left
      simp_all

theorem schemas_match_true_cols (env : Env) (h : schemas_match env = true) :
    colsCompare env.source_schema env.target_schema = true := by
  unfold schemas_match at h
  by_cases h1 : env.source_exists = false
  · simp [h1] at h
  · by_cases h2 : env.target_exists = false
    · simp [h1, h2] at h
    · simpa [h1, h2] using h

theorem applyOps_append (st : TargetState) (l1 l2 : List Op) :
    applyOps st (l1 ++ l2) = applyOps (applyOps st l1) l2 := by
  unfold applyOps
  exact List.foldl_append _ _ _ _

theorem applyOps_schema_no_ddl (ops : List Op) :
    ∀ st, (∀ op ∈ ops, op.isTableDDL = false) → (applyOps st ops).schema = st.schema := by
  induction ops with
  | nil => intro st _; rfl
  | cons op rest ih =>
    intro st h
    have hop : op.isTableDDL = false := h op (by simp)
    have hrest : ∀ o ∈ rest, o.isTableDDL = false := fun o ho => h o (by simp [ho])
    have hstep : (applyOp st op).schema = st.schema := by
      cases op with
      | dropTable ok table => simp [Op.isTableDDL] at hop
      | createTable ok table schema => simp [Op.isTableDDL] at hop
      | insertBatch ok stmt rows =>
        simp only [applyOp]
        split <;> rfl
      | commit => rfl
      | rollback => rfl
      | fetch n => rfl
      | closeCursor => rfl
      | createIndex ok ddl => rfl
    calc (applyOps st (op :: rest)).schema
        = (applyOps (applyOp st op) rest).schema := rfl
      _ = (applyOp st op).schema := ih (applyOp st op) hrest
      _ = st.schema := hstep

theorem zip_getElem (l1 : List PyValue) (l2 : List ColumnDef) :
    ∀ (i : Nat) a b, l1[i]? = Option.some a → l2[i]? = Option.some b →
      (l1.zip l2)[i]? = Option.some (a, b) := by
  induction l1 generalizing l2 with
  | nil => intro i a b h1 h2; simp at h1
  | cons x xs ih =>
    intro i a b h1 h2
    cases l2 with
    | nil => simp at h2
    | cons y ys =>
      cases i with
      | zero =>
        simp at h1 h2
        simp [h1, h2]
      | succ j =>
        simp only [List.getElem?_cons_succ] at h1 h2
        simpa using ih ys j a b h1 h2


/-- C8: index replication attempts every discovered index exactly once and
in order, returns true iff every attempted index succeeded (trivially true
for zero indexes), and the table's migration outcome is independent of the
index list and of every index-replication outcome. -/
theorem claim_C8_index_replication (env : Env) :
    ((migrate_indexes_for_table env).2.1 = env.indexes.map (·.name)) ∧
    ((migrate_indexes_for_table env).1 = true ↔
      ∀ idx ∈ env.indexes, env.gen_ddl idx ≠ "" ∧
        env.index_exec_ok (env.gen_ddl idx) = true) ∧
    (∀ t b k gen exec idxs,
      (migrate_table { env with indexes := idxs, gen_ddl := gen, index_exec_ok := exec }
        t b k).success = (migrate_table env t b k).success) := by
  refine ⟨migrate_indexes_attempts env, ?_, ?_⟩
  · unfold migrate_indexes_for_table
    by_cases hi : env.indexes = []
    · simp [hi]
    · simp only [hi, if_false]
      rw [indexLoop_success]
      simp [List.all_eq_true, Bool.and_eq_true, beq_eq_false_iff_ne]
  · intro t b k gen exec idxs
    simp only [migrate_table_success_eq]
    rfl

/-- C6: when the target exists, append_if_compatible is requested and the
schemas do not match, `migrate_table` returns failure with zero rows
copied and an empty operation trace, so replaying the trace leaves any
target-table state (rows included) unchanged. -/
theorem claim_C6_append_incompatible (env : Env) (t : String) (k : Nat)
    (h1 : env.target_exists = true) (h2 : schemas_match env = false) :
    migrate_table env t "append_if_compatible" k = ⟨false, [], 0⟩ ∧
    ∀ st, applyOps st (migrate_table env t "append_if_compatible" k).ops = st := by
  have hrec := reconcile_append_mismatch env t h1 h2
  have hm : migrate_table env t "append_if_compatible" k = ⟨false, [], 0⟩ := by
    have := migrate_table_rec_false env t "append_if_compatible" k (by rw [hrec])
    rw [this, hrec]
  exact ⟨hm, fun st => by rw [hm]; rfl⟩

/-- C10: the source cursor is closed only after a fetch that returned no
rows, and a run that fails (in particular one that stops consuming the
chunk generator mid-stream after a failed batch insert) never invokes the
cursor close primitive. -/
theorem claim_C10_cursor_close (env : Env) (t b : String) (k : Nat) :
    (Op.closeCursor ∈ (migrate_table env t b k).ops →
      Op.fetch 0 ∈ (migrate_table env t b k).ops) ∧
    ((migrate_table env t b k).success = false →
      Op.closeCursor ∉ (migrate_table env t b k).ops) := by
  have hrecnc : Op.closeCursor ∉ (reconcile env t b).2 := by
    intro hmem
    have := reconcile_ops_ddl env t b _ hmem
    simp [Op.isTableDDL] at this
  rcases migrate_table_cases env t b k with ⟨h1, he⟩ | ⟨h1, h2, he⟩ | ⟨h1, h2, he⟩ |
    ⟨rc, h1, h2, h3, h4, he⟩ | ⟨rc, h1, h2, h3, h4, he⟩
  · exact ⟨fun h => absurd (by simpa [he] using h) hrecnc,
      fun _ h => absurd (by simpa [he] using h) hrecnc⟩
  · exact ⟨fun h => absurd (by simpa [he] using h) hrecnc,
      fun _ h => absurd (by simpa [he] using h) hrecnc⟩
  · exact ⟨fun h => absurd (by simpa [he] using h) hrecnc,
      fun _ h => absurd (by simpa [he] using h) hrecnc⟩
  · constructor
    · intro h
      rw [he] at h
      simp only [MigrationResult.mk.injEq] at h ⊢
      rcases List.mem_append.mp (by simpa [he] using h) with hr | hc
      · exact absurd hr hrecnc
      · exact absurd hc (copyLoop_fail_no_close _ _ _ _ _ h4)
    · intro _ h
      rcases List.mem_append.mp (by simpa [he] using h) with hr | hc
      · exact absurd hr hrecnc
      · exact absurd hc (copyLoop_fail_no_close _ _ _ _ _ h4)
  · constructor
    · intro h
      have hmem := (by simpa [he] using h :
        Op.closeCursor ∈ (reconcile env t b).2 ++
          (copyLoop (prepare_insert_statement t (env.source_schema.map (·.name)))
            env.source_schema env.insert_ok (chunksOf k env.source_rows) 0).2.1 ++
          if env.migrate_indexes_globally = true then (migrate_indexes_for_table env).2.2
          else [])
      rcases List.mem_append.mp hmem with hleft | hix
      · rcases List.mem_append.mp hleft with hr | hc
        · exact absurd hr hrecnc
        · have hf := copyLoop_close_fetch _ _ _ _ _ hc
          rw [he]
          simp only [List.mem_append]
          exact Or.inl (Or.inr hf)
      · exfalso
        by_cases hg : env.migrate_indexes_globally = true
        · rw [if_pos hg] at hix
          obtain ⟨ok, ddl, hcontra⟩ := migrate_indexes_ops env _ hix
          simp at hcontra
        · rw [if_neg hg] at hix
          simp at hix
    · intro hsucc
      rw [he] at hsucc
      simp at hsucc

/-- C4: every executed INSERT statement is built from the source schema's
physical column order, every bound batch is a chunk of the source rows
converted against that same column list, and conversion is positional:
the value at index `i` of a converted row is the conversion of the source
value at index `i` against the column at index `i`. -/
theorem claim_C4_column_alignment (env : Env) (t b : String) (k : Nat) :
    (∀ ok s rs, Op.insertBatch ok s rs ∈ (migrate_table env t b k).ops →
      s = prepare_insert_statement t (env.source_schema.map (·.name)) ∧
      rs ∈ (chunksOf k env.source_rows).map
        fun ch => ch.map fun r => convert_row_values r env.source_schema) ∧
    (∀ (row : List PyValue) (cols : List ColumnDef) (i : Nat) v c,
      row[i]? = Option.some v → cols[i]? = Option.some c →
      (convert_row_values row cols)[i]? = Option.some (convert_value v c.data_type)) := by
  constructor
  · intro ok s rs hop
    have hrecni : Op.insertBatch ok s rs ∉ (reconcile env t b).2 := by
      intro hmem
      have := reconcile_ops_ddl env t b _ hmem
      simp [Op.isTableDDL] at this
    rcases migrate_table_cases env t b k with ⟨h1, he⟩ | ⟨h1, h2, he⟩ | ⟨h1, h2, he⟩ |
      ⟨rc, h1, h2, h3, h4, he⟩ | ⟨rc, h1, h2, h3, h4, he⟩
    · exact absurd (by simpa [he] using hop) hrecni
    · exact absurd (by simpa [he] using hop) hrecni
    · exact absurd (by simpa [he] using hop) hrecni
    · rcases List.mem_append.mp (by simpa [he] using hop) with hr | hc
      · exact absurd hr hrecni
      · exact copyLoop_insert_mem _ _ _ _ _ ok s rs hc
    · have hmem := (by simpa [he] using hop :
        Op.insertBatch ok s rs ∈ (reconcile env t b).2 ++
          (copyLoop (prepare_insert_statement t (env.source_schema.map (·.name)))
            env.source_schema env.insert_ok (chunksOf k env.source_rows) 0).2.1 ++
          if env.migrate_indexes_globally = true then (migrate_indexes_for_table env).2.2
          else [])
      rcases List.mem_append.mp hmem with hleft | hix
      · rcases List.mem_append.mp hleft with hr | hc
        · exact absurd hr hrecni
        · exact copyLoop_insert_mem _ _ _ _ _ ok s rs hc
      · exfalso
        by_cases hg : env.migrate_indexes_globally = true
        · rw [if_pos hg] at hix
          obtain ⟨ok2, ddl, hcontra⟩ := migrate_indexes_ops env _ hix
          simp at hcontra
        · rw [if_neg hg] at hix
          simp at hix
  · intro row cols i v c h1 h2
    unfold convert_row_values
    rw [List.getElem?_map, zip_getElem row cols i v c h1 h2]
    rfl


theorem migrate_table_insert_stmt (env : Env) (t b : String) (k : Nat) :
    ∀ ok s rs, Op.insertBatch ok s rs ∈ (migrate_table env t b k).ops →
      s = prepare_insert_statement t (env.source_schema.map (·.name)) := by
  intro ok s rs hop
  have hrecni : Op.insertBatch ok s rs ∉ (reconcile env t b).2 := by
    intro hmem
    have := reconcile_ops_ddl env t b _ hmem
    simp [Op.isTableDDL] at this
  rcases migrate_table_cases env t b k with ⟨h1, he⟩ | ⟨h1, h2, he⟩ | ⟨h1, h2, he⟩ |
    ⟨rc, h1, h2, h3, h4, he⟩ | ⟨rc, h1, h2, h3, h4, he⟩
  · exact absurd (by simpa [he] using hop) hrecni
  · exact absurd (by simpa [he] using hop) hrecni
  · exact absurd (by simpa [he] using hop) hrecni
  · rcases List.mem_append.mp (by simpa [he] using hop) with hr | hc
    · exact absurd hr hrecni
    · exact (copyLoop_insert_mem _ _ _ _ _ ok s rs hc).1
  · have hmem := (by simpa [he] using hop :
      Op.insertBatch ok s rs ∈ (reconcile env t b).2 ++
        (copyLoop (prepare_insert_statement t (env.source_schema.map (·.name)))
          env.source_schema env.insert_ok (chunksOf k env.source_rows) 0).2.1 ++
        if env.migrate_indexes_globally = true then (migrate_indexes_for_table env).2.2
        else [])
    rcases List.mem_append.mp hmem with hleft | hix
    · rcases List.mem_append.mp hleft with hr | hc
      · exact absurd hr hrecni
      · exact (copyLoop_insert_mem _ _ _ _ _ ok s rs hc).1
    · exfalso
      by_cases hg : env.migrate_indexes_globally = true
      · rw [if_pos hg] at hix
        obtain ⟨ok2, ddl, hcontra⟩ := migrate_indexes_ops env _ hix
        simp at hcontra
      · rw [if_neg hg] at hix
        simp at hix

theorem migrate_table_insert_rec_true (env : Env) (t b : String) (k : Nat)
    (ok : Bool) (s : String) (rs : List (List PyValue))
    (hop : Op.insertBatch ok s rs ∈ (migrate_table env t b k).ops) :
    (reconcile env t b).1 = true := by
  have hrecni : Op.insertBatch ok s rs ∉ (reconcile env t b).2 := by
    intro hmem
    have := reconcile_ops_ddl env t b _ hmem
    simp [Op.isTableDDL] at this
  rcases migrate_table_cases env t b k with ⟨h1, he⟩ | ⟨h1, h2, he⟩ | ⟨h1, h2, he⟩ |
    ⟨rc, h1, h2, h3, h4, he⟩ | ⟨rc, h1, h2, h3, h4, he⟩
  · exact absurd (by simpa [he] using hop) hrecni
  · exact h1
  · exact h1
  · exact h1
  · exact h1

/-- C3: every executed batch INSERT has its column name list equal to the
column names of the target table as it stands when the copy runs (the
names a fresh introspection of the target connection would return), for
any initial target state consistent with the introspection results. -/
theorem claim_C3_insert_columns_match_target (env : Env) (t b : String) (k : Nat)
    (st : TargetState) (hst : env.target_exists = true → st.schema = env.target_schema) :
    ∀ ok s rs, Op.insertBatch ok s rs ∈ (migrate_table env t b k).ops →
      s = prepare_insert_statement t
        ((applyOps st (migrate_table env t b k).ops).schema.map (·.name)) := by
  intro ok s rs hop
  have h1 := migrate_table_insert_rec_true env t b k ok s rs hop
  have hs := migrate_table_insert_stmt env t b k ok s rs hop
  obtain ⟨rest, hsplit, hrest⟩ := migrate_table_ops_split env t b k
  rw [hsplit, applyOps_append, applyOps_schema_no_ddl rest _ hrest]
  rcases reconcile_success_cases env t b h1 with ⟨hops, hte⟩ | hops | ⟨hops, hte, hsm, -⟩
  · rw [hops]
    simpa [applyOps, applyOp] using hs
  · rw [hops]
    simpa [applyOps, applyOp] using hs
  · rw [hops]
    have hnames := colsCompare_map_name _ _ (schemas_match_true_cols env hsm)
    simp only [applyOps, List.foldl_nil]
    rw [hst hte, ← hnames]
    exact hs


/-- C2: `migrate_table` follows the reconciliation decision table: a
missing target is created from the source schema with no drop; an existing
target under drop_and_recreate is dropped first and then created from the
source schema; append_if_compatible with matching schemas reuses the
target: reconciliation succeeds issuing no table DDL and the migration
proceeds, its outcome being exactly the data-copy outcome;
append_if_compatible with differing schemas fails with no operations;
any other behavior value fails with no operations; and a drop failure or a
create failure returns failure having issued no data-copy operation. -/
theorem claim_C2_decision_table (env : Env) (t b : String) (k : Nat) :
    (env.target_exists = false → env.source_schema ≠ [] →
      (migrate_table env t b k).ops.head? =
        Option.some (.createTable env.create_ok t env.source_schema) ∧
      ∀ ok tb, Op.dropTable ok tb ∉ (migrate_table env t b k).ops) ∧
    (env.target_exists = true → b = "drop_and_recreate" →
      (migrate_table env t b k).ops.head? = Option.some (.dropTable env.drop_ok t) ∧
      (env.drop_ok = true → env.source_schema ≠ [] →
        (migrate_table env t b k).ops[1]? =
          Option.some (.createTable env.create_ok t env.source_schema))) ∧
    (env.target_exists = true → b = "append_if_compatible" → schemas_match env = true →
      reconcile env t b = (true, []) ∧
      (∀ op ∈ (migrate_table env t b k).ops, op.isTableDDL = false) ∧
      (migrate_table env t b k).success =
        (match env.row_count with
         | Option.none => false
         | Option.some rc =>
           (rc == 0) ||
             (copyLoop (prepare_insert_statement t (env.source_schema.map (·.name)))
               env.source_schema env.insert_ok (chunksOf k env.source_rows) 0).1)) ∧
    (env.target_exists = true → b = "append_if_compatible" → schemas_match env = false →
      migrate_table env t b k = ⟨false, [], 0⟩) ∧
    (env.target_exists = true → b ≠ "drop_and_recreate" → b ≠ "append_if_compatible" →
      migrate_table env t b k = ⟨false, [], 0⟩) ∧
    (env.target_exists = true → b = "drop_and_recreate" → env.drop_ok = false →
      (migrate_table env t b k).success = false ∧
      ∀ op ∈ (migrate_table env t b k).ops, op.isCopyOp = false) ∧
    ((env.target_exists = false ∨
        (env.target_exists = true ∧ b = "drop_and_recreate" ∧ env.drop_ok = true)) →
      env.create_ok = false →
      (migrate_table env t b k).success = false ∧
      ∀ op ∈ (migrate_table env t b k).ops, op.isCopyOp = false) := by
  refine ⟨?_, ?_, ?_, ?_, ?_, ?_, ?_⟩
  · intro h1 h2
    have hrec : reconcile env t b = (env.create_ok,
        [.createTable env.create_ok t env.source_schema]) := by
      rw [reconcile_target_absent env t b h1]
      unfold create_table
      simp [h2]
    obtain ⟨rest, hsplit, hrest⟩ := migrate_table_ops_split env t b k
    constructor
    · rw [hsplit, hrec]
      rfl
    · intro ok tb hmem
      rw [hsplit, hrec] at hmem
      rcases List.mem_append.mp hmem with hl | hr
      · simp at hl
      · have := hrest _ hr
        simp [Op.isTableDDL] at this
  · intro h1 hb
    subst hb
    by_cases hd : env.drop_ok = true
    · have hrec := reconcile_drop_ok env t h1 hd
      obtain ⟨rest, hsplit, hrest⟩ := migrate_table_ops_split env t "drop_and_recreate" k
      constructor
      · rw [hsplit, hrec, hd]
        rfl
      · intro _ h2
        have hct : create_table env t = (env.create_ok,
            [.createTable env.create_ok t env.source_schema]) := by
          unfold create_table
          simp [h2]
        rw [hsplit, hrec, hct]
        simp
    · have hd0 : env.drop_ok = false := by
        cases hv : env.drop_ok
        · rfl
        · exact absurd hv hd
      have hrec := reconcile_drop_fail env t h1 hd0
      have hm := migrate_table_rec_false env t "drop_and_recreate" k (by rw [hrec])
      rw [hm, hrec, hd0]
      exact ⟨rfl, fun hcontra => absurd hcontra (by simp)⟩
  · intro h1 hb hsm
    subst hb
    have hrec := reconcile_append_match env t h1 hsm
    obtain ⟨rest, hsplit, hrest⟩ := migrate_table_ops_split env t "append_if_compatible" k
    refine ⟨hrec, ?_, ?_⟩
    · intro op hop
      rw [hsplit, hrec] at hop
      exact hrest op (by simpa using hop)
    · rw [migrate_table_success_eq, hrec]
      simp
  · intro h1 hb hsm
    subst hb
    have hrec := reconcile_append_mismatch env t h1 hsm
    have hm := migrate_table_rec_false env t "append_if_compatible" k (by rw [hrec])
    rw [hm, hrec]
  · intro h1 hb1 hb2
    have hrec := reconcile_invalid_behavior env t b h1 hb1 hb2
    have hm := migrate_table_rec_false env t b k (by rw [hrec])
    rw [hm, hrec]
  · intro h1 hb hd
    subst hb
    have hrec := reconcile_drop_fail env t h1 hd
    have hm := migrate_table_rec_false env t "drop_and_recreate" k (by rw [hrec])
    rw [hm, hrec]
    refine ⟨rfl, ?_⟩
    intro op hop
    simp only [List.mem_cons, List.not_mem_nil, or_false] at hop
    subst hop
    rfl
  · intro hcond hck
    have hrecf : (reconcile env t b).1 = false := by
      rcases hcond with hte | ⟨hte, hb, hdo⟩
      · rw [reconcile_target_absent env t b hte]
        unfold create_table
        by_cases hs : env.source_schema = [] <;> simp [hs, hck]
      · subst hb
        rw [reconcile_drop_ok env t hte hdo]
        unfold create_table
        by_cases hs : env.source_schema = [] <;> simp [hs, hck]
    have hm := migrate_table_rec_false env t b k hrecf
    rw [hm]
    refine ⟨rfl, ?_⟩
    intro op hop
    exact isTableDDL_not_copy op (reconcile_ops_ddl env t b op hop)



/-- Witness for C8: two indexes are both attempted exactly once, the
replication reports overall failure when the second CREATE INDEX fails,
and the table outcome is independent of the index configuration. -/
theorem claim_C8_index_replication_witness :
    (migrate_indexes_for_table idxEnv).2.1 = ["IDX_TEST_1", "IDX_TEST_2"] ∧
    (migrate_indexes_for_table idxEnv).1 = false ∧
    ((migrate_indexes_for_table idxEnv).1 = true ↔
      ∀ idx ∈ idxEnv.indexes, idxEnv.gen_ddl idx ≠ "" ∧
        idxEnv.index_exec_ok (idxEnv.gen_ddl idx) = true) ∧
    (migrate_table
      { idxEnv with
          indexes := []
          gen_ddl := fun _ => ""
          index_exec_ok := fun _ => true } "T" "drop_and_recreate" 10).success =
      (migrate_table idxEnv "T" "drop_and_recreate" 10).success :=
  ⟨((claim_C8_index_replication idxEnv).1).trans (by decide), by decide,
    (claim_C8_index_replication idxEnv).2.1,
    (claim_C8_index_replication idxEnv).2.2 "T" "drop_and_recreate" 10
      (fun _ => "") (fun _ => true) []⟩

/-- Witness for C6 at a target whose column list differs from the source:
the migration fails with no operations and any target state is left
untouched. -/
theorem claim_C6_append_incompatible_witness :
    mismatchEnv.target_exists = true ∧ schemas_match mismatchEnv = false ∧
    (migrate_table mismatchEnv "T" "append_if_compatible" 10 = ⟨false, [], 0⟩ ∧
      ∀ st, applyOps st (migrate_table mismatchEnv "T" "append_if_compatible" 10).ops = st) :=
  ⟨rfl, by decide, claim_C6_append_incompatible mismatchEnv "T" 10 rfl (by decide)⟩

/-- Witness for C10: when every batch insert fails the migration reports
failure and the cursor close primitive never ran. -/
theorem claim_C10_cursor_close_witness :
    (migrate_table failEnv "T" "drop_and_recreate" 10).success = false ∧
    Op.closeCursor ∉ (migrate_table failEnv "T" "drop_and_recreate" 10).ops := by
  have hsucc : (migrate_table failEnv "T" "drop_and_recreate" 10).success = false := by
    simp [migrate_table, reconcile, create_table, schemas_match, colsCompare, failEnv,
      sampleEnv, copyLoop, chunksOf]
  exact ⟨hsucc, (claim_C10_cursor_close failEnv "T" "drop_and_recreate" 10).2 hsucc⟩

/-- Witness for C3: the one INSERT issued for `sampleEnv` carries exactly
the column list of the target table as created during reconciliation. -/
theorem claim_C3_insert_columns_match_target_witness :
    (sampleEnv.target_exists = true → sampleSt.schema = sampleEnv.target_schema) ∧
    Op.insertBatch true "INSERT INTO T (A, B) VALUES (:1, :2)"
        [[.int 1, .str "x"], [.int 2, .str "5"], [.int 3, .none]] ∈
      (migrate_table sampleEnv "T" "drop_and_recreate" 10).ops ∧
    "INSERT INTO T (A, B) VALUES (:1, :2)" = prepare_insert_statement "T"
      ((applyOps sampleSt
        (migrate_table sampleEnv "T" "drop_and_recreate" 10).ops).schema.map (·.name)) := by
  have hst : sampleEnv.target_exists = true → sampleSt.schema = sampleEnv.target_schema :=
    fun h => absurd h (by decide)
  have hops : (migrate_table sampleEnv "T" "drop_and_recreate" 10).ops =
      [.createTable true "T" [colA, colB],
       .fetch 3,
       .insertBatch true "INSERT INTO T (A, B) VALUES (:1, :2)"
         [[.int 1, .str "x"], [.int 2, .str "5"], [.int 3, .none]],
       .commit, .fetch 0, .closeCursor] := by
    simp [migrate_table, reconcile, create_table, schemas_match, colsCompare, sampleEnv,
      copyLoop, chunksOf, prepare_insert_statement, convert_row_values, convert_value,
      colA, colB, pyStr, String.intercalate]
    decide
  have hmem : Op.insertBatch true "INSERT INTO T (A, B) VALUES (:1, :2)"
      [[.int 1, .str "x"], [.int 2, .str "5"], [.int 3, .none]] ∈
      (migrate_table sampleEnv "T" "drop_and_recreate" 10).ops := by
    rw [hops]
    decide
  exact ⟨hst, hmem,
    claim_C3_insert_columns_match_target sampleEnv "T" "drop_and_recreate" 10 sampleSt hst
      true _ _ hmem⟩

/-- Witness for C4: the issued INSERT uses the source column order and a
bound tuple position holds the conversion of the source value at that same
position. -/
theorem claim_C4_column_alignment_witness :
    (Op.insertBatch true "INSERT INTO T (A, B) VALUES (:1, :2)"
        [[.int 1, .str "x"], [.int 2, .str "5"], [.int 3, .none]] ∈
      (migrate_table sampleEnv "T" "drop_and_recreate" 10).ops) ∧
    ("INSERT INTO T (A, B) VALUES (:1, :2)" =
        prepare_insert_statement "T" (sampleEnv.source_schema.map (·.name)) ∧
      [[.int 1, .str "x"], [.int 2, .str "5"], [.int 3, .none]] ∈
        (chunksOf 10 sampleEnv.source_rows).map
          fun ch => ch.map fun r => convert_row_values r sampleEnv.source_schema) ∧
    (([.int 7, .int 8] : List PyValue)[1]? = Option.some (.int 8) ∧
      [colA, colB][1]? = Option.some colB ∧
      (convert_row_values [.int 7, .int 8] [colA, colB])[1]? =
        Option.some (convert_value (.int 8) colB.data_type)) := by
  have hops : (migrate_table sampleEnv "T" "drop_and_recreate" 10).ops =
      [.createTable true "T" [colA, colB],
       .fetch 3,
       .insertBatch true "INSERT INTO T (A, B) VALUES (:1, :2)"
         [[.int 1, .str "x"], [.int 2, .str "5"], [.int 3, .none]],
       .commit, .fetch 0, .closeCursor] := by
    simp [migrate_table, reconcile, create_table, schemas_match, colsCompare, sampleEnv,
      copyLoop, chunksOf, prepare_insert_statement, convert_row_values, convert_value,
      colA, colB, pyStr, String.intercalate]
    decide
  have hmem : Op.insertBatch true "INSERT INTO T (A, B) VALUES (:1, :2)"
      [[.int 1, .str "x"], [.int 2, .str "5"], [.int 3, .none]] ∈
      (migrate_table sampleEnv "T" "drop_and_recreate" 10).ops := by
    rw [hops]
    decide
  exact ⟨hmem,
    (claim_C4_column_alignment sampleEnv "T" "drop_and_recreate" 10).1 true _ _ hmem,
    by decide, by decide,
    (claim_C4_column_alignment sampleEnv "T" "drop_and_recreate" 10).2
      [.int 7, .int 8] [colA, colB] 1 (.int 8) colB (by decide) (by decide)⟩

/-- Witness for C2: on a fresh target the first operation is the CREATE
from the source schema and no DROP is ever issued; on an existing target
with matching schemas under append_if_compatible, reconciliation succeeds
with no DDL (the target is reused) and the migration proceeds and
succeeds. -/
theorem claim_C2_decision_table_witness :
    (sampleEnv.target_exists = false ∧ sampleEnv.source_schema ≠ [] ∧
      ((migrate_table sampleEnv "T" "drop_and_recreate" 10).ops.head? =
        Option.some (.createTable sampleEnv.create_ok "T" sampleEnv.source_schema) ∧
      ∀ ok tb,
        Op.dropTable ok tb ∉ (migrate_table sampleEnv "T" "drop_and_recreate" 10).ops)) ∧
    (matchEnv.target_exists = true ∧ schemas_match matchEnv = true ∧
      reconcile matchEnv "T" "append_if_compatible" = (true, []) ∧
      (migrate_table matchEnv "T" "append_if_compatible" 10).success = true) := by
  have happend := (claim_C2_decision_table matchEnv "T" "append_if_compatible" 10).2.2.1
    rfl rfl (by decide)
  have hsucc : (migrate_table matchEnv "T" "append_if_compatible" 10).success = true := by
    rw [happend.2.2]
    simp [matchEnv, sampleEnv, copyLoop, chunksOf]
  exact ⟨⟨rfl, by decide,
      (claim_C2_decision_table sampleEnv "T" "drop_and_recreate" 10).1 rfl (by decide)⟩,
    rfl, by decide, happend.1, hsucc⟩

end OTM
